import Mathlib

/-!
go-mitmproxy: upstream-proxy resolution, proxy construction and connection contexts.

A shallow embedding of `proxy/proxy.go` and `flow/conncontext.go`.

Conventions of the embedding:

* a Go pointer that may be nil is an `Option`; a Go `(value, error)` result is an `Except`;
* a struct reached through a pointer is passed and returned explicitly (state passing);
* a closure stored in a struct is a record of the values it captured, and its body is a
  Lean function taking that record;
* calls that leave the program (the network dialer, the `conn_wrap` and `when_connected`
  callbacks) are recorded, in order, in a trace of events;
* functions of the Go standard library and of packages outside the two embedded files are
  taken as parameters.
-/

namespace GoMitmproxy

/-! ## Data shared by both files -/

/-- A Go `error` value, identified by its message. -/
abbrev GoError := String

/-- The fields of `url.URL` that the embedded code reads or writes. -/
structure Url where
  Scheme : String
  Host : String
deriving DecidableEq, Repr

/-- The fields of an `http.Request` received by the proxy's server that the code reads. -/
structure Request where
  URL : Url
  Host : String
deriving DecidableEq, Repr

/-- An outgoing (client side) `http.Request`; `proxyReq` is the value its context holds
under `proxyReqCtxKey`, when there is one. -/
structure ClientRequest extends Request where
  proxyReq : Option Request
deriving DecidableEq, Repr

/-- A Go result `(*url.URL, error)`: an error, the nil URL (dial directly), or a proxy URL. -/
abbrev ProxyResult := Except GoError (Option Url)

/-- The `io.Writer` receiving TLS secrets: nil, or the sink with the given name. -/
abbrev KeyLogWriter := Option String

/-- The fields of `tls.Config` that the code sets. -/
structure TlsConfig where
  InsecureSkipVerify : Bool
  KeyLogWriter : KeyLogWriter
  ServerName : String
deriving DecidableEq, Repr

/-- A `net.Conn`: a socket obtained from the operating system, a socket wrapped by a
`conn_wrap` callback, or the TLS client `tls.Client(inner, cfg)` layered over another. -/
inductive NetConn where
  | raw (fd : Nat)
  | wrapped (tag : Nat) (inner : NetConn)
  | tlsClient (inner : NetConn) (cfg : TlsConfig)
deriving DecidableEq, Repr

/-- The identity of a `func()` callback; calling it is recorded in the trace. -/
abbrev Callback := Nat

/-- The closures the code stores under `Transport.Proxy`. -/
inductive ProxyFunc where
  | ProxyFromEnvironment
  | realUpstreamProxy
deriving DecidableEq, Repr

/-- The closures the code stores under `Client.CheckRedirect`; the only one used returns
`http.ErrUseLastResponse` for every redirect. -/
inductive RedirectPolicy where
  | useLastResponse
deriving DecidableEq, Repr

/-- What a dialer closure of `conncontext.go` can reach from the enclosing call: the
arguments of the initializer. Only the `DialTLSContext` closure reads `sslInsecure`. -/
structure DialClosure where
  sslInsecure : Bool
  connWrap : NetConn → NetConn
  whenConnected : Callback

/-- The fields of `http.Transport` that the code sets; an absent closure is `none`. -/
structure Transport where
  Proxy : ProxyFunc
  DialContext : Option DialClosure
  DialTLSContext : Option DialClosure
  ForceAttemptHTTP2 : Bool
  DisableCompression : Bool
  TLSClientConfig : Option TlsConfig

/-- The fields of `http.Client` that the code sets. -/
structure HttpClient where
  Transport : Transport
  CheckRedirect : RedirectPolicy

/-! ## proxy/proxy.go -/

/-- The `Options` struct. -/
structure Options where
  Debug : Int
  Addr : String
  StreamLargeBodies : Int
  SslInsecure : Bool
  CaRootPath : String
  Upstream : String
deriving DecidableEq, Repr

/-- The `Proxy` struct. `Addon`, `Entry` and `Middle` are the types declared elsewhere in
the package (`Addon`, `entry`, `middle`). -/
structure Proxy (Addon Entry Middle : Type) where
  Opts : Options
  Version : String
  Addons : List Addon
  entry : Option Entry
  client : Option HttpClient
  interceptor : Option Middle
  shouldIntercept : Option (Request → Bool)
  upstreamProxy : Option (Request → ProxyResult)

/-- Go's `len` of a string: its number of bytes. -/
def goLen (s : String) : Nat := s.utf8ByteSize

section ProxyGo

variable {Addon Entry Middle : Type}

/-- `NewProxy`. The caller's `*Options` is written through, so the updated options are
returned next to the Go result. `newEntry`, `newMiddle` and `getTlsKeyLogWriter` belong to
other files of the package; they receive the proxy and build a value from it. -/
def NewProxy (newEntry : Proxy Addon Entry Middle → String → Entry)
    (newMiddle : Proxy Addon Entry Middle → Except GoError Middle)
    (getTlsKeyLogWriter : KeyLogWriter) (opts : Options) :
    Options × Except GoError (Proxy Addon Entry Middle) :=
  let opts : Options :=
    if opts.StreamLargeBodies ≤ 0 then
      { opts with StreamLargeBodies := 1024 * 1024 * 5 }
    else opts
  let proxy : Proxy Addon Entry Middle :=
    { Opts := opts
      Version := "1.7.1"
      Addons := []
      entry := none
      client := none
      interceptor := none
      shouldIntercept := none
      upstreamProxy := none }
  let proxy := { proxy with entry := some (newEntry proxy opts.Addr) }
  let proxy := { proxy with
    client := some
      { Transport :=
          { Proxy := ProxyFunc.realUpstreamProxy
            DialContext := none
            DialTLSContext := none
            ForceAttemptHTTP2 := false
            DisableCompression := true
            TLSClientConfig := some
              { InsecureSkipVerify := opts.SslInsecure
                KeyLogWriter := getTlsKeyLogWriter
                ServerName := "" } }
        CheckRedirect := RedirectPolicy.useLastResponse } }
  match newMiddle proxy with
  | .error err => (opts, .error err)
  | .ok interceptor =>
    let proxy := { proxy with interceptor := some interceptor }
    (opts, .ok proxy)

/-- `Proxy.AddAddon`. -/
def Proxy.AddAddon (proxy : Proxy Addon Entry Middle) (addon : Addon) :
    Proxy Addon Entry Middle :=
  { proxy with Addons := proxy.Addons ++ [addon] }

/-- `Proxy.SetShouldInterceptRule`. -/
def Proxy.SetShouldInterceptRule (proxy : Proxy Addon Entry Middle) (rule : Request → Bool) :
    Proxy Addon Entry Middle :=
  { proxy with shouldIntercept := some rule }

/-- `Proxy.SetUpstreamProxy`; passing Go's nil function is `none`. -/
def Proxy.SetUpstreamProxy (proxy : Proxy Addon Entry Middle)
    (fn : Option (Request → ProxyResult)) : Proxy Addon Entry Middle :=
  { proxy with upstreamProxy := fn }

/-- `Proxy.getUpstreamProxyUrl`. `ProxyFromEnvironment` is `http.ProxyFromEnvironment` in
the environment of the process and `urlParse` is `url.Parse`. -/
def Proxy.getUpstreamProxyUrl (ProxyFromEnvironment : Request → ProxyResult)
    (urlParse : String → Except GoError Url) (proxy : Proxy Addon Entry Middle)
    (req : Request) : ProxyResult :=
  match proxy.upstreamProxy with
  | some upstreamProxy => upstreamProxy req
  | none =>
    if goLen proxy.Opts.Upstream > 0 then
      (urlParse proxy.Opts.Upstream).map some
    else
      let cReq : Request := { URL := { Scheme := "https", Host := req.Host }, Host := "" }
      ProxyFromEnvironment cReq

/-- `Proxy.realUpstreamProxy`: the closure applied to a client request. The type assertion
on the context value panics when the value is missing, which is `none` here. -/
def Proxy.realUpstreamProxy (ProxyFromEnvironment : Request → ProxyResult)
    (urlParse : String → Except GoError Url) (proxy : Proxy Addon Entry Middle)
    (cReq : ClientRequest) : Option ProxyResult :=
  match cReq.proxyReq with
  | none => none
  | some req => some (proxy.getUpstreamProxyUrl ProxyFromEnvironment urlParse req)

/-- The proxy a transport selects for a client request: its `Proxy` closure applied to it.
`proxy` is the proxy whose method `realUpstreamProxy` was stored. -/
def Transport.proxyFor (ProxyFromEnvironment : Request → ProxyResult)
    (urlParse : String → Except GoError Url) (proxy : GoMitmproxy.Proxy Addon Entry Middle)
    (t : Transport) (cReq : ClientRequest) : Option ProxyResult :=
  match t.Proxy with
  | .ProxyFromEnvironment => some (ProxyFromEnvironment cReq.toRequest)
  | .realUpstreamProxy => proxy.realUpstreamProxy ProxyFromEnvironment urlParse cReq

end ProxyGo

/-! ## The environment resolver of the standard library -/

/-- The proxy settings read from the environment: the parsed values of `HTTP_PROXY` and
`HTTPS_PROXY` (nil when unset), whether the process runs as a CGI handler
(`REQUEST_METHOD` is set), and the decision of the `NO_PROXY` matcher on the request URL's
address, which is true when the request may go through a proxy. -/
structure EnvConfig where
  HTTPProxy : Option Url
  HTTPSProxy : Option Url
  CGI : Bool
  useProxy : Url → Bool

/-- The standard semantics of the proxy environment variables, as implemented by
`http.ProxyFromEnvironment` on the request's URL: the scheme selects the variable (`https`
reads `HTTPS_PROXY`, `http` reads `HTTP_PROXY`, any other scheme has no proxy), a set
`HTTP_PROXY` is refused with an error in a CGI environment, and a host matched by
`NO_PROXY` is dialed directly. -/
def EnvConfig.proxyForRequest (cfg : EnvConfig) (req : Request) : ProxyResult :=
  if req.URL.Scheme = "https" then
    match cfg.HTTPSProxy with
    | none => .ok none
    | some u => if !cfg.useProxy req.URL then .ok none else .ok (some u)
  else if req.URL.Scheme = "http" then
    match cfg.HTTPProxy with
    | none => .ok none
    | some u =>
      if cfg.CGI then
        .error "refusing to use HTTP_PROXY value in CGI environment; see golang.org/s/cgihttpproxy"
      else if !cfg.useProxy req.URL then .ok none
      else .ok (some u)
  else .ok none

/-! ## flow/conncontext.go -/

/-- The fields of `connection.Client` that the code reads: the accepted socket and the
TLS flag. -/
structure Client where
  Conn : NetConn
  Tls : Bool
deriving DecidableEq, Repr

/-- The `connection.Server` record: the upstream socket, the upstream HTTP client and the
dialed address. -/
structure Server where
  Conn : Option NetConn
  Client : Option HttpClient
  Address : String

/-- The `ConnContext` struct. `Client` is set by `NewConnContext` and is never nil. -/
structure ConnContext where
  Client : Client
  Server : Option Server

/-- `NewConnContext`; `NewClient` is `connection.NewClient`. -/
def NewConnContext (NewClient : NetConn → Client) (c : NetConn) : ConnContext :=
  { Client := NewClient c, Server := none }

/-- `ConnContext.InitHttpServer`. `NewServer` is the record `connection.NewServer()`
returns and `GetTlsKeyLogWriter` the writer `GetTlsKeyLogWriter()` returns. -/
def ConnContext.InitHttpServer (NewServer : GoMitmproxy.Server) (GetTlsKeyLogWriter : KeyLogWriter)
    (connCtx : ConnContext) (sslInsecure : Bool) (connWrap : NetConn → NetConn)
    (whenConnected : Callback) : ConnContext :=
  if connCtx.Server.isSome then connCtx
  else if connCtx.Client.Tls then connCtx
  else
    let server := NewServer
    let server : GoMitmproxy.Server := { server with
      Client := some
        { Transport :=
            { Proxy := ProxyFunc.ProxyFromEnvironment
              DialContext := some
                { sslInsecure := sslInsecure
                  connWrap := connWrap
                  whenConnected := whenConnected }
              DialTLSContext := none
              ForceAttemptHTTP2 := false
              DisableCompression := true
              TLSClientConfig := some
                { InsecureSkipVerify := sslInsecure
                  KeyLogWriter := GetTlsKeyLogWriter
                  ServerName := "" } }
          CheckRedirect := RedirectPolicy.useLastResponse } }
    { connCtx with Server := some server }

/-- `ConnContext.InitHttpsServer`. -/
def ConnContext.InitHttpsServer (NewServer : GoMitmproxy.Server) (connCtx : ConnContext)
    (sslInsecure : Bool) (connWrap : NetConn → NetConn) (whenConnected : Callback) :
    ConnContext :=
  if connCtx.Server.isSome then connCtx
  else if !connCtx.Client.Tls then connCtx
  else
    let server := NewServer
    let server : GoMitmproxy.Server := { server with
      Client := some
        { Transport :=
            { Proxy := ProxyFunc.ProxyFromEnvironment
              DialContext := none
              DialTLSContext := some
                { sslInsecure := sslInsecure
                  connWrap := connWrap
                  whenConnected := whenConnected }
              ForceAttemptHTTP2 := false
              DisableCompression := true
              TLSClientConfig := none }
          CheckRedirect := RedirectPolicy.useLastResponse } }
    { connCtx with Server := some server }

/-- What the dialers do outside the program, in the order it happens: the call of
`(&net.Dialer{}).DialContext` with its result, the call of `conn_wrap` on a socket, and
the call of a `func()` callback together with the `Conn` and `Address` the Server record
holds at that moment. -/
inductive Event where
  | netDial (network addr : String) (result : Except GoError NetConn)
  | connWrap (c : NetConn)
  | call (cb : Callback) (conn : Option NetConn) (address : String)

/-- The state a dialer closure works on: the Server record it captured and the trace. -/
structure DialState where
  server : Server
  trace : List Event

/-- The body of the `DialContext` closure of `InitHttpServer`. `tcp` is the result of
`(&net.Dialer{}).DialContext(ctx, network, addr)`. The deferred `whenConnected()` runs
when the closure returns, after the assignments. -/
def dialContext (cl : DialClosure) (tcp : Except GoError NetConn) (network addr : String)
    (st : DialState) : DialState × Except GoError NetConn :=
  let st : DialState := { st with trace := st.trace ++ [Event.netDial network addr tcp] }
  match tcp with
  | .error err => (st, .error err)
  | .ok c =>
    let cw := cl.connWrap c
    let st : DialState := { st with trace := st.trace ++ [Event.connWrap c] }
    let st : DialState := { st with server := { st.server with Conn := some cw } }
    let st : DialState := { st with server := { st.server with Address := addr } }
    let st : DialState := { st with
      trace := st.trace ++ [Event.call cl.whenConnected st.server.Conn st.server.Address] }
    (st, .ok cw)

/-- The body of the `DialTLSContext` closure of `InitHttpsServer`. `SplitHostPort` is
`net.SplitHostPort`; the debug log line is not modelled. -/
def dialTLSContext (SplitHostPort : String → Except GoError (String × String))
    (GetTlsKeyLogWriter : KeyLogWriter) (cl : DialClosure) (tcp : Except GoError NetConn)
    (network addr : String) (st : DialState) : DialState × Except GoError NetConn :=
  let st : DialState := { st with trace := st.trace ++ [Event.netDial network addr tcp] }
  match tcp with
  | .error err => (st, .error err)
  | .ok plainConn =>
    let cw := cl.connWrap plainConn
    let st : DialState := { st with trace := st.trace ++ [Event.connWrap plainConn] }
    let st : DialState := { st with server := { st.server with Conn := some cw } }
    let st : DialState := { st with server := { st.server with Address := addr } }
    let st : DialState := { st with
      trace := st.trace ++ [Event.call cl.whenConnected st.server.Conn st.server.Address] }
    match SplitHostPort addr with
    | .error err => (st, .error err)
    | .ok (firstTLSHost, _) =>
      let cfg : TlsConfig :=
        { InsecureSkipVerify := cl.sslInsecure
          KeyLogWriter := GetTlsKeyLogWriter
          ServerName := firstTLSHost }
      let tlsConn := NetConn.tlsClient cw cfg
      (st, .ok tlsConn)

/-! ## Connection contexts over time -/

/-- A connection context together with the trace of what its dialers did so far. -/
structure World where
  connCtx : ConnContext
  trace : List Event

/-- The `DialContext` closure stored in the attached Server's client, if there is one. -/
def ConnContext.httpDialer (connCtx : ConnContext) : Option DialClosure :=
  match connCtx.Server with
  | none => none
  | some server =>
    match server.Client with
    | none => none
    | some client => client.Transport.DialContext

/-- The `DialTLSContext` closure stored in the attached Server's client, if there is one. -/
def ConnContext.httpsDialer (connCtx : ConnContext) : Option DialClosure :=
  match connCtx.Server with
  | none => none
  | some server =>
    match server.Client with
    | none => none
    | some client => client.Transport.DialTLSContext

/-- The transport calling `connCtx.Server.Client.Transport.DialContext`: the closure runs
on the Server record the context points to. Without such a closure nothing is called. -/
def World.invokeDialContext (w : World) (tcp : Except GoError NetConn)
    (network addr : String) : World × Option (Except GoError NetConn) :=
  match w.connCtx.Server with
  | none => (w, none)
  | some server =>
    match w.connCtx.httpDialer with
    | none => (w, none)
    | some cl =>
      let r := dialContext cl tcp network addr { server := server, trace := w.trace }
      ({ connCtx := { w.connCtx with Server := some r.1.server }, trace := r.1.trace },
        some r.2)

/-- The transport calling `connCtx.Server.Client.Transport.DialTLSContext`. -/
def World.invokeDialTLSContext (SplitHostPort : String → Except GoError (String × String))
    (GetTlsKeyLogWriter : KeyLogWriter) (w : World) (tcp : Except GoError NetConn)
    (network addr : String) : World × Option (Except GoError NetConn) :=
  match w.connCtx.Server with
  | none => (w, none)
  | some server =>
    match w.connCtx.httpsDialer with
    | none => (w, none)
    | some cl =>
      let r := dialTLSContext SplitHostPort GetTlsKeyLogWriter cl tcp network addr
        { server := server, trace := w.trace }
      ({ connCtx := { w.connCtx with Server := some r.1.server }, trace := r.1.trace },
        some r.2)

/-- One call of `InitHttpServer` (`https = false`) or `InitHttpsServer` (`https = true`)
with its arguments. -/
structure InitCall where
  https : Bool
  sslInsecure : Bool
  connWrap : NetConn → NetConn
  whenConnected : Callback

/-- The context after the given initializer call. -/
def ConnContext.init (NewServer : GoMitmproxy.Server) (GetTlsKeyLogWriter : KeyLogWriter)
    (connCtx : ConnContext) (call : InitCall) : ConnContext :=
  if call.https then
    connCtx.InitHttpsServer NewServer call.sslInsecure call.connWrap call.whenConnected
  else
    connCtx.InitHttpServer NewServer GetTlsKeyLogWriter call.sslInsecure call.connWrap
      call.whenConnected

/-- What can happen to a connection context: a call of an initializer, or the transport
calling one of the two dialers with some address and some outcome of the TCP connect. -/
inductive Step where
  | init (call : InitCall)
  | dialContext (network addr : String) (tcp : Except GoError NetConn)
  | dialTLSContext (network addr : String) (tcp : Except GoError NetConn)

/-- The world after one step. -/
def World.step (NewServer : Server) (GetTlsKeyLogWriter : KeyLogWriter)
    (SplitHostPort : String → Except GoError (String × String)) (w : World) :
    Step → World
  | .init call => { w with connCtx := w.connCtx.init NewServer GetTlsKeyLogWriter call }
  | .dialContext network addr tcp => (w.invokeDialContext tcp network addr).1
  | .dialTLSContext network addr tcp =>
    (w.invokeDialTLSContext SplitHostPort GetTlsKeyLogWriter tcp network addr).1

/-- The world after a sequence of steps, first step first. -/
def World.run (NewServer : Server) (GetTlsKeyLogWriter : KeyLogWriter)
    (SplitHostPort : String → Except GoError (String × String)) (w : World)
    (steps : List Step) : World :=
  steps.foldl (World.step NewServer GetTlsKeyLogWriter SplitHostPort) w

/-- The world of a freshly accepted client socket: `NewConnContext(c)`, nothing dialed. -/
def World.new (NewClient : NetConn → Client) (c : NetConn) : World :=
  { connCtx := NewConnContext NewClient c, trace := [] }

/-- The address a trace event shows as dialed: that of a `netDial` whose TCP connect
succeeded. -/
def Event.dialed : Event → Option String
  | .netDial _ addr (.ok _) => some addr
  | _ => none

/-- The address of the most recent dial whose TCP connect succeeded, if any. -/
def lastDialed (trace : List Event) : Option String :=
  (trace.filterMap Event.dialed).getLast?

/-- Whether the step is an initializer call of the variant that applies to the TLS flag. -/
def Step.attaches (tls : Bool) : Step → Bool
  | .init call => call.https == tls
  | _ => false

/-- How often the callback `cb` was called in a trace. -/
def callCount (cb : Callback) : List Event → Nat
  | [] => 0
  | Event.call cb' _ _ :: rest => (if cb' = cb then 1 else 0) + callCount cb rest
  | _ :: rest => callCount cb rest

/-- How often `conn_wrap` was called in a trace. -/
def connWrapCount : List Event → Nat
  | [] => 0
  | Event.connWrap _ :: rest => 1 + connWrapCount rest
  | _ :: rest => connWrapCount rest

/-- Whether the initializer call is the variant that applies to the TLS flag. -/
def InitCall.appliesTo (call : InitCall) (tls : Bool) : Bool := call.https == tls

/-! ## Sample inputs

Concrete values at which the statements below are evaluated. -/

/-- A parent proxy URL. -/
def sampleParent : Url := { Scheme := "http", Host := "parent.test:3128" }

/-- A `url.Parse` that knows the one URL text used in the samples. -/
def sampleUrlParse (s : String) : Except GoError Url :=
  if s = "http://parent.test:3128" then .ok sampleParent else .error "invalid URL"

/-- Options as a caller leaves them when only the listen address is given. -/
def sampleOptions : Options :=
  { Debug := 0, Addr := ":9080", StreamLargeBodies := 0, SslInsecure := false,
    CaRootPath := "", Upstream := "" }

/-- Options naming a parent proxy and a threshold of one MiB. -/
def sampleUpstreamOptions : Options :=
  { Debug := 0, Addr := ":9080", StreamLargeBodies := 1048576, SslInsecure := true,
    CaRootPath := "", Upstream := "http://parent.test:3128" }

/-- A proxy with no resolver callback and no `Upstream` option; addons are numbered. -/
def sampleProxy : Proxy Nat Unit Unit :=
  { Opts := sampleOptions, Version := "1.7.1", Addons := [], entry := none, client := none,
    interceptor := none, shouldIntercept := none, upstreamProxy := none }

/-- A proxy with the `Upstream` option set and no resolver callback. -/
def sampleUpstreamProxy : Proxy Nat Unit Unit :=
  { sampleProxy with Opts := sampleUpstreamOptions }

/-- A `newEntry` for the sample proxies. -/
def sampleNewEntry (_ : Proxy Nat Unit Unit) (_ : String) : Unit := ()

/-- A `newMiddle` that succeeds. -/
def sampleNewMiddle (_ : Proxy Nat Unit Unit) : Except GoError Unit := .ok ()

/-- A resolver callback that sends every request to a proxy named after the request. -/
def sampleResolver (req : Request) : ProxyResult :=
  .ok (some { Scheme := "http", Host := req.Host })

/-- A proxy with a resolver callback installed and the `Upstream` option set as well. -/
def sampleCallbackProxy : Proxy Nat Unit Unit :=
  sampleUpstreamProxy.SetUpstreamProxy (some sampleResolver)

/-- A plain-http request for `example.test`. -/
def sampleRequest : Request :=
  { URL := { Scheme := "http", Host := "example.test" }, Host := "example.test" }

/-- The client request the proxy sends out for `sampleRequest`. -/
def sampleClientRequest : ClientRequest :=
  { toRequest := sampleRequest, proxyReq := some sampleRequest }

/-- An environment with `HTTP_PROXY` set, `HTTPS_PROXY` and `NO_PROXY` unset, not CGI. -/
def sampleEnv : EnvConfig :=
  { HTTPProxy := some sampleParent, HTTPSProxy := none, CGI := false,
    useProxy := fun _ => true }

/-- An environment with none of the proxy variables set. -/
def emptyEnv : EnvConfig :=
  { HTTPProxy := none, HTTPSProxy := none, CGI := false, useProxy := fun _ => true }

/-- A `connection.NewClient` for a socket accepted by the entry listener (not TLS). -/
def sampleNewClient (c : NetConn) : Client := { Conn := c, Tls := false }

/-- A `connection.NewClient` for a socket the interceptor has TLS-terminated. -/
def sampleNewTlsClient (c : NetConn) : Client := { Conn := c, Tls := true }

/-- A `connection.NewServer()` result: nothing dialed, no client. -/
def sampleNewServer : Server := { Conn := none, Client := none, Address := "" }

/-- A `conn_wrap` callback. -/
def sampleConnWrap (c : NetConn) : NetConn := NetConn.wrapped 7 c

/-- A `net.SplitHostPort` that knows the one address used in the samples. -/
def sampleSplitHostPort (addr : String) : Except GoError (String × String) :=
  if addr = "example.test:443" then .ok ("example.test", "443")
  else .error "missing port in address"

/-- A plain-http context: Server nil, TLS flag false. -/
def sampleHttpCtx : ConnContext := NewConnContext sampleNewClient (NetConn.raw 3)

/-- An https context: Server nil, TLS flag true. -/
def sampleHttpsCtx : ConnContext := NewConnContext sampleNewTlsClient (NetConn.raw 3)

/-- A call of `InitHttpServer`. -/
def sampleHttpCall : InitCall :=
  { https := false, sslInsecure := false, connWrap := sampleConnWrap, whenConnected := 1 }

/-- A call of `InitHttpsServer`. -/
def sampleHttpsCall : InitCall :=
  { https := true, sslInsecure := true, connWrap := sampleConnWrap, whenConnected := 2 }

/-- The world after `InitHttpServer` on the plain-http sample context, nothing dialed. -/
def sampleHttpWorld : World :=
  { connCtx := sampleHttpCtx.init sampleNewServer none sampleHttpCall, trace := [] }

/-- The world after `InitHttpsServer` on the https sample context, nothing dialed. -/
def sampleHttpsWorld : World :=
  { connCtx := sampleHttpsCtx.init sampleNewServer none sampleHttpsCall, trace := [] }

/-! ## Lemmas on strings -/

theorem goLen_pos_iff (s : String) : 0 < goLen s ↔ s ≠ "" := by
  obtain ⟨cs⟩ := s
  cases cs with
  | nil => simp [goLen, String.utf8ByteSize, String.utf8ByteSize.go]
  | cons c cs =>
    have hc : 0 < c.utf8Size := Char.utf8Size_pos c
    have hne : (⟨c :: cs⟩ : String) ≠ "" := by
      intro h
      have := congrArg String.data h
      simp at this
    simp only [goLen, String.utf8ByteSize, String.utf8ByteSize.go, ne_eq, hne, not_false_eq_true,
      iff_true]
    omega

/-! ## proxy/proxy.go: lemmas -/

section ProxyLemmas

variable {Addon Entry Middle : Type}

theorem getUpstreamProxyUrl_of_callback (env : Request → ProxyResult)
    (parse : String → Except GoError Url) (proxy : Proxy Addon Entry Middle)
    (fn : Request → ProxyResult) (req : Request) (h : proxy.upstreamProxy = some fn) :
    proxy.getUpstreamProxyUrl env parse req = fn req := by
  simp [Proxy.getUpstreamProxyUrl, h]

theorem getUpstreamProxyUrl_of_option (env : Request → ProxyResult)
    (parse : String → Except GoError Url) (proxy : Proxy Addon Entry Middle) (req : Request)
    (h : proxy.upstreamProxy = none) (hup : proxy.Opts.Upstream ≠ "") :
    proxy.getUpstreamProxyUrl env parse req = (parse proxy.Opts.Upstream).map some := by
  have hlen : goLen proxy.Opts.Upstream > 0 := (goLen_pos_iff _).2 hup
  simp [Proxy.getUpstreamProxyUrl, h, hlen]

theorem getUpstreamProxyUrl_of_env (env : Request → ProxyResult)
    (parse : String → Except GoError Url) (proxy : Proxy Addon Entry Middle) (req : Request)
    (h : proxy.upstreamProxy = none) (hup : proxy.Opts.Upstream = "") :
    proxy.getUpstreamProxyUrl env parse req
      = env { URL := { Scheme := "https", Host := req.Host }, Host := "" } := by
  have hlen : ¬ goLen proxy.Opts.Upstream > 0 := by
    rw [gt_iff_lt, goLen_pos_iff]; simp [hup]
  simp [Proxy.getUpstreamProxyUrl, h, hlen]

theorem foldl_AddAddon_Addons (addons : List Addon) (proxy : Proxy Addon Entry Middle) :
    (addons.foldl Proxy.AddAddon proxy).Addons = proxy.Addons ++ addons := by
  induction addons generalizing proxy with
  | nil => simp
  | cons a rest ih => simp [List.foldl, ih, Proxy.AddAddon]

theorem NewProxy_ok_Addons (newEntry : Proxy Addon Entry Middle → String → Entry)
    (newMiddle : Proxy Addon Entry Middle → Except GoError Middle)
    (keyLog : KeyLogWriter) (opts : Options) (proxy : Proxy Addon Entry Middle)
    (h : (NewProxy newEntry newMiddle keyLog opts).2 = .ok proxy) :
    proxy.Addons = [] ∧ proxy.Opts = (NewProxy newEntry newMiddle keyLog opts).1 := by
  unfold NewProxy at h ⊢
  simp only at h ⊢
  split at h
  · simp at h
  · simp only [Except.ok.injEq] at h
    subst h
    simp

end ProxyLemmas

/-! ## proxy/proxy.go: upstream-proxy resolution -/

/-- C1: `getUpstreamProxyUrl` resolves in a fixed priority order. With a resolver callback
installed (by `SetUpstreamProxy`) the result is the callback's result on the request,
whatever the `Upstream` option, the URL parser and the environment are; otherwise, with a
non-empty `Upstream` option, it is that string parsed as a URL (or the parse error),
whatever the environment is; only with neither set is the environment resolver called. -/
theorem getUpstreamProxyUrl_priority {Addon Entry Middle : Type}
    (env : Request → ProxyResult) (parse : String → Except GoError Url)
    (proxy : Proxy Addon Entry Middle) (req : Request) :
    (∀ fn : Request → ProxyResult,
      (proxy.SetUpstreamProxy (some fn)).upstreamProxy = some fn ∧
      (proxy.SetUpstreamProxy (some fn)).getUpstreamProxyUrl env parse req = fn req) ∧
    (∀ fn : Request → ProxyResult, proxy.upstreamProxy = some fn →
      proxy.getUpstreamProxyUrl env parse req = fn req ∧
      ∀ (env' : Request → ProxyResult) (parse' : String → Except GoError Url)
        (opts' : Options),
        ({ proxy with Opts := opts' } : Proxy Addon Entry Middle).getUpstreamProxyUrl
          env' parse' req = fn req) ∧
    (proxy.upstreamProxy = none → proxy.Opts.Upstream ≠ "" →
      proxy.getUpstreamProxyUrl env parse req = (parse proxy.Opts.Upstream).map some ∧
      ∀ env' : Request → ProxyResult,
        proxy.getUpstreamProxyUrl env' parse req
          = (parse proxy.Opts.Upstream).map some) ∧
    (proxy.upstreamProxy = none → proxy.Opts.Upstream = "" →
      proxy.getUpstreamProxyUrl env parse req
        = env { URL := { Scheme := "https", Host := req.Host }, Host := "" }) := by
  refine ⟨fun fn => ⟨rfl, ?_⟩, fun fn h => ⟨?_, fun env' parse' opts' => ?_⟩,
    fun h hup => ⟨?_, fun env' => ?_⟩, fun h hup => ?_⟩
  · exact getUpstreamProxyUrl_of_callback env parse _ fn req rfl
  · exact getUpstreamProxyUrl_of_callback env parse proxy fn req h
  · exact getUpstreamProxyUrl_of_callback env' parse' _ fn req h
  · exact getUpstreamProxyUrl_of_option env parse proxy req h hup
  · exact getUpstreamProxyUrl_of_option env' parse proxy req h hup
  · exact getUpstreamProxyUrl_of_env env parse proxy req h hup

/-- C1 at concrete proxies: a proxy with a callback and the `Upstream` option answers with
the callback; one with only the option answers with the parsed option although the
environment names no proxy; one with neither asks the environment. -/
theorem getUpstreamProxyUrl_priority_witness :
    sampleCallbackProxy.getUpstreamProxyUrl emptyEnv.proxyForRequest sampleUrlParse
        sampleRequest = .ok (some { Scheme := "http", Host := "example.test" }) ∧
    sampleUpstreamProxy.getUpstreamProxyUrl emptyEnv.proxyForRequest sampleUrlParse
        sampleRequest = .ok (some sampleParent) ∧
    sampleProxy.getUpstreamProxyUrl emptyEnv.proxyForRequest sampleUrlParse sampleRequest
        = emptyEnv.proxyForRequest
            { URL := { Scheme := "https", Host := "example.test" }, Host := "" } :=
  ⟨((getUpstreamProxyUrl_priority emptyEnv.proxyForRequest sampleUrlParse
      sampleCallbackProxy sampleRequest).2.1 sampleResolver rfl).1,
   ((getUpstreamProxyUrl_priority emptyEnv.proxyForRequest sampleUrlParse
      sampleUpstreamProxy sampleRequest).2.2.1 rfl (by decide)).1,
   (getUpstreamProxyUrl_priority emptyEnv.proxyForRequest sampleUrlParse
      sampleProxy sampleRequest).2.2.2 rfl rfl⟩

/-- C10 at the failing input: no resolver callback, empty `Upstream`, `HTTP_PROXY` set,
`HTTPS_PROXY` and `NO_PROXY` unset, and a plain-http request. The standard semantics
designate the `HTTP_PROXY` value for the request, and the client that `InitHttpServer`
attaches, which applies `http.ProxyFromEnvironment` to the request itself, selects it;
`getUpstreamProxyUrl` asks the environment about an https URL and answers that no proxy is
used. -/
theorem getUpstreamProxyUrl_ignores_HTTP_PROXY :
    sampleProxy.upstreamProxy.isNone = true ∧ sampleProxy.Opts.Upstream = "" ∧
    sampleRequest.URL.Scheme = "http" ∧
    sampleEnv.HTTPProxy = some sampleParent ∧ sampleEnv.HTTPSProxy = none ∧
    sampleEnv.proxyForRequest sampleRequest = .ok (some sampleParent) ∧
    sampleProxy.getUpstreamProxyUrl sampleEnv.proxyForRequest sampleUrlParse sampleRequest
      = .ok none ∧
    (∃ server client, sampleHttpWorld.connCtx.Server = some server ∧
      server.Client = some client ∧
      client.Transport.proxyFor sampleEnv.proxyForRequest sampleUrlParse sampleProxy
          sampleClientRequest = some (.ok (some sampleParent))) := by
  refine ⟨rfl, rfl, rfl, rfl, rfl, ?_, ?_, ⟨_, _, rfl, rfl, ?_⟩⟩
  · simp [EnvConfig.proxyForRequest, sampleEnv, sampleRequest]
  · rw [getUpstreamProxyUrl_of_env _ _ _ _ rfl rfl]
    simp [EnvConfig.proxyForRequest, sampleEnv]
  · simp [Transport.proxyFor, EnvConfig.proxyForRequest, sampleEnv, sampleClientRequest,
      sampleRequest]

/-! ## proxy/proxy.go: construction and addons -/

/-- C8: after `NewProxy` the caller's options hold `StreamLargeBodies = 5242880`
(5 * 1024 * 1024) when the supplied value was zero or negative and the supplied value
when it was positive; the value is strictly positive, a constructed proxy holds these
options, and no other field of the options is modified. -/
theorem NewProxy_StreamLargeBodies {Addon Entry Middle : Type}
    (newEntry : Proxy Addon Entry Middle → String → Entry)
    (newMiddle : Proxy Addon Entry Middle → Except GoError Middle)
    (keyLog : KeyLogWriter) (opts : Options) :
    (opts.StreamLargeBodies ≤ 0 →
      (NewProxy newEntry newMiddle keyLog opts).1.StreamLargeBodies = 5242880) ∧
    (0 < opts.StreamLargeBodies →
      (NewProxy newEntry newMiddle keyLog opts).1.StreamLargeBodies
        = opts.StreamLargeBodies) ∧
    (5242880 : Int) = 5 * 1024 * 1024 ∧
    0 < (NewProxy newEntry newMiddle keyLog opts).1.StreamLargeBodies ∧
    (∀ proxy : Proxy Addon Entry Middle,
      (NewProxy newEntry newMiddle keyLog opts).2 = .ok proxy →
        proxy.Opts = (NewProxy newEntry newMiddle keyLog opts).1 ∧
        0 < proxy.Opts.StreamLargeBodies) ∧
    (NewProxy newEntry newMiddle keyLog opts).1.Debug = opts.Debug ∧
    (NewProxy newEntry newMiddle keyLog opts).1.Addr = opts.Addr ∧
    (NewProxy newEntry newMiddle keyLog opts).1.SslInsecure = opts.SslInsecure ∧
    (NewProxy newEntry newMiddle keyLog opts).1.CaRootPath = opts.CaRootPath ∧
    (NewProxy newEntry newMiddle keyLog opts).1.Upstream = opts.Upstream := by
  have hopts : (NewProxy newEntry newMiddle keyLog opts).1
      = if opts.StreamLargeBodies ≤ 0 then { opts with StreamLargeBodies := 1024 * 1024 * 5 }
        else opts := by
    unfold NewProxy
    simp only
    split <;> rfl
  have hpos : 0 < (NewProxy newEntry newMiddle keyLog opts).1.StreamLargeBodies := by
    rw [hopts]
    split
    · show (0 : Int) < 1024 * 1024 * 5
      norm_num
    · omega
  refine ⟨fun h => ?_, fun h => ?_, by norm_num, hpos, fun proxy hp => ?_, ?_, ?_, ?_, ?_, ?_⟩
  · rw [hopts, if_pos h]; rfl
  · rw [hopts, if_neg (by omega)]
  · have := NewProxy_ok_Addons newEntry newMiddle keyLog opts proxy hp
    exact ⟨this.2, this.2 ▸ hpos⟩
  all_goals rw [hopts]; split <;> rfl

/-- C8 at concrete options: a zero threshold becomes 5242880, a threshold of one MiB is
kept, and the proxy built from the zero threshold holds 5242880. -/
theorem NewProxy_StreamLargeBodies_witness :
    (NewProxy sampleNewEntry sampleNewMiddle none
        sampleOptions).1.StreamLargeBodies = 5242880 ∧
    (NewProxy sampleNewEntry sampleNewMiddle none
        sampleUpstreamOptions).1.StreamLargeBodies = 1048576 ∧
    (∃ proxy : Proxy Nat Unit Unit,
      (NewProxy sampleNewEntry sampleNewMiddle none sampleOptions).2 = .ok proxy ∧
      proxy.Opts.StreamLargeBodies = 5242880) :=
  ⟨(NewProxy_StreamLargeBodies sampleNewEntry sampleNewMiddle none
      sampleOptions).1 (by decide),
   (NewProxy_StreamLargeBodies sampleNewEntry sampleNewMiddle none
      sampleUpstreamOptions).2.1 (by decide),
   ⟨_, rfl, rfl⟩⟩

/-- C9: the addon list records installation order. A proxy returned by `NewProxy` has no
addons; `AddAddon a` makes the list the previous list followed by `a` (one longer, every
earlier addon at its position, `a` last) and changes no other field; so after
`AddAddon a1`, ..., `AddAddon an` on a fresh proxy the list is `[a1, ..., an]`. -/
theorem AddAddon_installation_order {Addon Entry Middle : Type}
    (newEntry : Proxy Addon Entry Middle → String → Entry)
    (newMiddle : Proxy Addon Entry Middle → Except GoError Middle)
    (keyLog : KeyLogWriter) (opts : Options) (proxy : Proxy Addon Entry Middle)
    (a : Addon) (addons : List Addon) :
    ((NewProxy newEntry newMiddle keyLog opts).2 = .ok proxy → proxy.Addons = []) ∧
    (proxy.AddAddon a).Addons = proxy.Addons ++ [a] ∧
    (proxy.AddAddon a).Addons.length = proxy.Addons.length + 1 ∧
    (∀ i, i < proxy.Addons.length → (proxy.AddAddon a).Addons[i]? = proxy.Addons[i]?) ∧
    (proxy.AddAddon a).Addons[proxy.Addons.length]? = some a ∧
    proxy.AddAddon a = { proxy with Addons := (proxy.AddAddon a).Addons } ∧
    (addons.foldl Proxy.AddAddon proxy).Addons = proxy.Addons ++ addons ∧
    ((NewProxy newEntry newMiddle keyLog opts).2 = .ok proxy →
      (addons.foldl Proxy.AddAddon proxy).Addons = addons) := by
  refine ⟨fun h => (NewProxy_ok_Addons newEntry newMiddle keyLog opts proxy h).1, rfl, ?_,
    fun i hi => ?_, ?_, rfl, foldl_AddAddon_Addons addons proxy, fun h => ?_⟩
  · simp [Proxy.AddAddon]
  · simp [Proxy.AddAddon, List.getElem?_append_left hi]
  · simp [Proxy.AddAddon]
  · rw [foldl_AddAddon_Addons, (NewProxy_ok_Addons newEntry newMiddle keyLog opts proxy h).1]
    simp

/-- C9 at a concrete input: three addons installed on a fresh proxy. -/
theorem AddAddon_installation_order_witness :
    ∃ proxy : Proxy Nat Unit Unit,
      (NewProxy sampleNewEntry sampleNewMiddle none sampleOptions).2 = .ok proxy ∧
      proxy.Addons = [] ∧
      (((proxy.AddAddon 10).AddAddon 20).AddAddon 30).Addons = [10, 20, 30] :=
  ⟨_, rfl,
    (AddAddon_installation_order sampleNewEntry sampleNewMiddle none sampleOptions _ 10
      [10, 20, 30]).1 rfl,
    (AddAddon_installation_order sampleNewEntry sampleNewMiddle none sampleOptions _ 10
      [10, 20, 30]).2.2.2.2.2.2.2 rfl⟩

/-! ## flow/conncontext.go: the initializers -/

theorem InitHttpServer_of_attached (NewServer : Server) (keyLog : KeyLogWriter)
    (ctx : ConnContext) (sslInsecure : Bool) (connWrap : NetConn → NetConn)
    (whenConnected : Callback) (h : ctx.Server.isSome = true) :
    ctx.InitHttpServer NewServer keyLog sslInsecure connWrap whenConnected = ctx := by
  simp [ConnContext.InitHttpServer, h]

theorem InitHttpsServer_of_attached (NewServer : Server) (ctx : ConnContext)
    (sslInsecure : Bool) (connWrap : NetConn → NetConn) (whenConnected : Callback)
    (h : ctx.Server.isSome = true) :
    ctx.InitHttpsServer NewServer sslInsecure connWrap whenConnected = ctx := by
  simp [ConnContext.InitHttpsServer, h]

theorem init_of_attached (NewServer : Server) (keyLog : KeyLogWriter) (ctx : ConnContext)
    (call : InitCall) (h : ctx.Server.isSome = true) :
    ctx.init NewServer keyLog call = ctx := by
  unfold ConnContext.init
  split
  · exact InitHttpsServer_of_attached NewServer ctx _ _ _ h
  · exact InitHttpServer_of_attached NewServer keyLog ctx _ _ _ h

theorem init_of_mismatch (NewServer : Server) (keyLog : KeyLogWriter) (ctx : ConnContext)
    (call : InitCall) (h : call.appliesTo ctx.Client.Tls = false) :
    ctx.init NewServer keyLog call = ctx := by
  obtain ⟨https, ssl, cw, wc⟩ := call
  cases https <;> cases htls : ctx.Client.Tls <;>
    simp_all [ConnContext.init, ConnContext.InitHttpServer, ConnContext.InitHttpsServer,
      InitCall.appliesTo]

theorem init_Client (NewServer : Server) (keyLog : KeyLogWriter) (ctx : ConnContext)
    (call : InitCall) : (ctx.init NewServer keyLog call).Client = ctx.Client := by
  unfold ConnContext.init ConnContext.InitHttpServer ConnContext.InitHttpsServer
  repeat' split
  all_goals rfl

theorem init_isSome (NewServer : Server) (keyLog : KeyLogWriter) (ctx : ConnContext)
    (call : InitCall) :
    (ctx.init NewServer keyLog call).Server.isSome
      = (ctx.Server.isSome || call.appliesTo ctx.Client.Tls) := by
  obtain ⟨https, ssl, cw, wc⟩ := call
  cases hs : ctx.Server.isSome <;> cases https <;> cases htls : ctx.Client.Tls <;>
    simp [ConnContext.init, ConnContext.InitHttpServer, ConnContext.InitHttpsServer,
      InitCall.appliesTo, hs, htls]

/-- C2, as stated, fails: on a context with no Server and the TLS flag false, calling
`InitHttpsServer` (a no-op) and then `InitHttpServer` attaches a Server, which the first
call alone does not. -/
theorem init_twice_counterexample :
    sampleHttpCtx.Server.isSome = false ∧
    (sampleHttpCtx.init sampleNewServer none sampleHttpsCall).Server.isSome = false ∧
    ((sampleHttpCtx.init sampleNewServer none sampleHttpsCall).init sampleNewServer none
        sampleHttpCall).Server.isSome = true := by
  refine ⟨rfl, rfl, rfl⟩

/-- C2, amended: on a context whose Server is attached, `InitHttpServer` and
`InitHttpsServer`, with any arguments, leave the whole context unchanged; and for every
context, an initializer call followed by a second one yields the same context as the
first call alone exactly when the two calls are the same variant, or a Server was
attached beforehand, or the first call is the variant that applies to the TLS flag. -/
theorem init_idempotent (NewServer : Server) (keyLog : KeyLogWriter) (ctx : ConnContext)
    (first second : InitCall) :
    (ctx.Server.isSome = true →
      ctx.InitHttpServer NewServer keyLog first.sslInsecure first.connWrap
          first.whenConnected = ctx ∧
      ctx.InitHttpsServer NewServer first.sslInsecure first.connWrap
          first.whenConnected = ctx) ∧
    ((ctx.init NewServer keyLog first).init NewServer keyLog second
        = ctx.init NewServer keyLog first ↔
      (first.https = second.https ∨ ctx.Server.isSome = true ∨
        first.appliesTo ctx.Client.Tls = true)) := by
  refine ⟨fun h => ⟨InitHttpServer_of_attached _ _ _ _ _ _ h,
    InitHttpsServer_of_attached _ _ _ _ _ h⟩, ?_⟩
  constructor
  · intro heq
    by_contra hcon
    simp only [not_or, Bool.not_eq_true] at hcon
    obtain ⟨hvar, hnone, hmis⟩ := hcon
    have h1 : ctx.init NewServer keyLog first = ctx := init_of_mismatch _ _ _ _ hmis
    rw [h1] at heq
    have h2 := init_isSome NewServer keyLog ctx second
    rw [heq, hnone] at h2
    have key : ∀ a b t : Bool, ¬ a = b → (a == t) = false → (b == t) = true := by decide
    have h3 : second.appliesTo ctx.Client.Tls = true := key _ _ _ hvar hmis
    rw [h3] at h2
    simp at h2
  · intro h
    by_cases hatt : (ctx.init NewServer keyLog first).Server.isSome = true
    · exact init_of_attached _ _ _ _ hatt
    · rw [init_isSome] at hatt
      simp only [Bool.or_eq_true, not_or, Bool.not_eq_true] at hatt
      obtain ⟨hnone, hmis⟩ := hatt
      have h1 : ctx.init NewServer keyLog first = ctx := init_of_mismatch _ _ _ _ hmis
      rw [h1]
      apply init_of_mismatch
      rcases h with h | h | h
      · revert hmis
        simp only [InitCall.appliesTo, h]
        exact id
      · rw [hnone] at h; cases h
      · rw [hmis] at h; cases h

/-- C2, amended, at concrete inputs: `InitHttpServer` twice, and `InitHttpsServer` after an
`InitHttpServer` that applied, yield the context of the first call, which has a Server. -/
theorem init_idempotent_witness :
    (sampleHttpCtx.init sampleNewServer none sampleHttpCall).Server.isSome = true ∧
    (sampleHttpCtx.init sampleNewServer none sampleHttpCall).init sampleNewServer none
        sampleHttpCall = sampleHttpCtx.init sampleNewServer none sampleHttpCall ∧
    (sampleHttpCtx.init sampleNewServer none sampleHttpCall).init sampleNewServer none
        sampleHttpsCall = sampleHttpCtx.init sampleNewServer none sampleHttpCall :=
  ⟨rfl,
   (init_idempotent sampleNewServer none sampleHttpCtx sampleHttpCall sampleHttpCall).2.2
      (Or.inl rfl),
   (init_idempotent sampleNewServer none sampleHttpCtx sampleHttpCall sampleHttpsCall).2.2
      (Or.inr (Or.inr rfl))⟩

/-- C3: on a context with no Server attached, `InitHttpServer` attaches a Server, with an
upstream HTTP client, if and only if the Client's TLS flag is false, and `InitHttpsServer`
if and only if it is true; on a mismatch the context is unchanged; the Client record is
unchanged in every case. -/
theorem init_applies_by_tls_flag (NewServer : Server) (keyLog : KeyLogWriter)
    (ctx : ConnContext) (sslInsecure : Bool) (connWrap : NetConn → NetConn)
    (whenConnected : Callback) (hnil : ctx.Server = none) :
    (((ctx.InitHttpServer NewServer keyLog sslInsecure connWrap whenConnected).Server.isSome
        = true ↔ ctx.Client.Tls = false) ∧
      (ctx.Client.Tls = false → ∃ server client,
        (ctx.InitHttpServer NewServer keyLog sslInsecure connWrap whenConnected).Server
          = some server ∧ server.Client = some client) ∧
      (ctx.Client.Tls = true →
        ctx.InitHttpServer NewServer keyLog sslInsecure connWrap whenConnected = ctx)) ∧
    (((ctx.InitHttpsServer NewServer sslInsecure connWrap whenConnected).Server.isSome
        = true ↔ ctx.Client.Tls = true) ∧
      (ctx.Client.Tls = true → ∃ server client,
        (ctx.InitHttpsServer NewServer sslInsecure connWrap whenConnected).Server
          = some server ∧ server.Client = some client) ∧
      (ctx.Client.Tls = false →
        ctx.InitHttpsServer NewServer sslInsecure connWrap whenConnected = ctx)) ∧
    (ctx.InitHttpServer NewServer keyLog sslInsecure connWrap whenConnected).Client
      = ctx.Client ∧
    (ctx.InitHttpsServer NewServer sslInsecure connWrap whenConnected).Client
      = ctx.Client := by
  cases htls : ctx.Client.Tls <;>
    simp [ConnContext.InitHttpServer, ConnContext.InitHttpsServer, hnil, htls]

/-- C3 at concrete inputs: on the plain-http sample context `InitHttpServer` attaches a
Server and `InitHttpsServer` does nothing. -/
theorem init_applies_by_tls_flag_witness :
    sampleHttpCtx.Server = none ∧
    (sampleHttpCtx.InitHttpServer sampleNewServer none false sampleConnWrap 1).Server.isSome
      = true ∧
    sampleHttpCtx.InitHttpsServer sampleNewServer false sampleConnWrap 1 = sampleHttpCtx :=
  ⟨rfl,
   (init_applies_by_tls_flag sampleNewServer none sampleHttpCtx false sampleConnWrap 1
      rfl).1.1.2 rfl,
   (init_applies_by_tls_flag sampleNewServer none sampleHttpCtx false sampleConnWrap 1
      rfl).2.1.2.2 rfl⟩

/-! ## flow/conncontext.go: the dialers -/

theorem callCount_append (cb : Callback) (xs ys : List Event) :
    callCount cb (xs ++ ys) = callCount cb xs + callCount cb ys := by
  induction xs with
  | nil => simp [callCount]
  | cons e rest ih => cases e <;> simp [callCount, ih, Nat.add_assoc]

theorem connWrapCount_append (xs ys : List Event) :
    connWrapCount (xs ++ ys) = connWrapCount xs + connWrapCount ys := by
  induction xs with
  | nil => simp [connWrapCount]
  | cons e rest ih => cases e <;> simp [connWrapCount, ih, Nat.add_assoc]

theorem InitHttpServer_httpDialer (NewServer : Server) (keyLog : KeyLogWriter)
    (ctx : ConnContext) (sslInsecure : Bool) (connWrap : NetConn → NetConn)
    (whenConnected : Callback) (hnil : ctx.Server = none) (htls : ctx.Client.Tls = false) :
    (ctx.InitHttpServer NewServer keyLog sslInsecure connWrap whenConnected).httpDialer
      = some { sslInsecure := sslInsecure, connWrap := connWrap,
               whenConnected := whenConnected } := by
  simp [ConnContext.InitHttpServer, ConnContext.httpDialer, hnil, htls]

theorem InitHttpsServer_httpsDialer (NewServer : Server) (ctx : ConnContext)
    (sslInsecure : Bool) (connWrap : NetConn → NetConn) (whenConnected : Callback)
    (hnil : ctx.Server = none) (htls : ctx.Client.Tls = true) :
    (ctx.InitHttpsServer NewServer sslInsecure connWrap whenConnected).httpsDialer
      = some { sslInsecure := sslInsecure, connWrap := connWrap,
               whenConnected := whenConnected } := by
  simp [ConnContext.InitHttpsServer, ConnContext.httpsDialer, hnil, htls]

theorem invokeDialContext_ok (w : World) (server : Server) (cl : DialClosure)
    (network addr : String) (c : NetConn) (hs : w.connCtx.Server = some server)
    (hd : w.connCtx.httpDialer = some cl) :
    w.invokeDialContext (.ok c) network addr
      = ({ connCtx := { w.connCtx with
             Server := some { server with Conn := some (cl.connWrap c), Address := addr } }
           trace := w.trace ++ [Event.netDial network addr (.ok c), Event.connWrap c,
             Event.call cl.whenConnected (some (cl.connWrap c)) addr] },
         some (.ok (cl.connWrap c))) := by
  simp [World.invokeDialContext, hs, hd, dialContext]

theorem invokeDialContext_error (w : World) (server : Server) (cl : DialClosure)
    (network addr : String) (err : GoError) (hs : w.connCtx.Server = some server)
    (hd : w.connCtx.httpDialer = some cl) :
    w.invokeDialContext (.error err) network addr
      = ({ connCtx := w.connCtx
           trace := w.trace ++ [Event.netDial network addr (.error err)] },
         some (.error err)) := by
  obtain ⟨⟨client, srv⟩, trace⟩ := w
  simp only at hs
  subst hs
  simp only at hd
  simp [World.invokeDialContext, hd, dialContext]

theorem invokeDialTLSContext_ok (SplitHostPort : String → Except GoError (String × String))
    (keyLog : KeyLogWriter) (w : World) (server : Server) (cl : DialClosure)
    (network addr : String) (c : NetConn) (hs : w.connCtx.Server = some server)
    (hd : w.connCtx.httpsDialer = some cl) :
    w.invokeDialTLSContext SplitHostPort keyLog (.ok c) network addr
      = ({ connCtx := { w.connCtx with
             Server := some { server with Conn := some (cl.connWrap c), Address := addr } }
           trace := w.trace ++ [Event.netDial network addr (.ok c), Event.connWrap c,
             Event.call cl.whenConnected (some (cl.connWrap c)) addr] },
         some (match SplitHostPort addr with
           | .error err => .error err
           | .ok (firstTLSHost, _) =>
             .ok (NetConn.tlsClient (cl.connWrap c)
               { InsecureSkipVerify := cl.sslInsecure, KeyLogWriter := keyLog,
                 ServerName := firstTLSHost }))) := by
  simp only [World.invokeDialTLSContext, hs, hd, dialTLSContext]
  cases hsp : SplitHostPort addr with
  | error err => simp
  | ok hp => simp

theorem invokeDialTLSContext_error
    (SplitHostPort : String → Except GoError (String × String)) (keyLog : KeyLogWriter)
    (w : World) (server : Server) (cl : DialClosure) (network addr : String)
    (err : GoError) (hs : w.connCtx.Server = some server)
    (hd : w.connCtx.httpsDialer = some cl) :
    w.invokeDialTLSContext SplitHostPort keyLog (.error err) network addr
      = ({ connCtx := w.connCtx
           trace := w.trace ++ [Event.netDial network addr (.error err)] },
         some (.error err)) := by
  obtain ⟨⟨client, srv⟩, trace⟩ := w
  simp only at hs
  subst hs
  simp only at hd
  simp [World.invokeDialTLSContext, hd, dialTLSContext]

/-- C4: the dialers installed by `InitHttpServer` and `InitHttpsServer` capture the
call's `conn_wrap` and `when_connected`. Whenever such a dialer is called for an address
`addr`: if the TCP connect succeeds with socket `c`, `conn_wrap` is called on `c` once, the
Server record's `Conn` becomes `conn_wrap c` and its `Address` becomes `addr`, and then
`when_connected` is called exactly once, seeing both assignments; if the connect fails,
the error is returned, the context is unchanged and neither callback is called. -/
theorem dialers_record_connection (NewServer : Server) (keyLog : KeyLogWriter)
    (SplitHostPort : String → Except GoError (String × String)) (w : World)
    (server : Server) (cl : DialClosure) (network addr : String)
    (hs : w.connCtx.Server = some server) :
    (∀ (ctx : ConnContext) (sslInsecure : Bool) (connWrap : NetConn → NetConn)
        (whenConnected : Callback), ctx.Server = none →
      (ctx.Client.Tls = false →
        (ctx.InitHttpServer NewServer keyLog sslInsecure connWrap whenConnected).httpDialer
          = some { sslInsecure := sslInsecure, connWrap := connWrap,
                   whenConnected := whenConnected }) ∧
      (ctx.Client.Tls = true →
        (ctx.InitHttpsServer NewServer sslInsecure connWrap whenConnected).httpsDialer
          = some { sslInsecure := sslInsecure, connWrap := connWrap,
                   whenConnected := whenConnected })) ∧
    (w.connCtx.httpDialer = some cl →
      (∀ c : NetConn,
        w.invokeDialContext (.ok c) network addr
          = ({ connCtx := { w.connCtx with
                 Server := some
                   { server with Conn := some (cl.connWrap c), Address := addr } }
               trace := w.trace ++ [Event.netDial network addr (.ok c), Event.connWrap c,
                 Event.call cl.whenConnected (some (cl.connWrap c)) addr] },
             some (.ok (cl.connWrap c))) ∧
        (∀ cb, callCount cb (w.invokeDialContext (.ok c) network addr).1.trace
          = callCount cb w.trace + (if cl.whenConnected = cb then 1 else 0)) ∧
        connWrapCount (w.invokeDialContext (.ok c) network addr).1.trace
          = connWrapCount w.trace + 1) ∧
      (∀ err : GoError,
        w.invokeDialContext (.error err) network addr
          = ({ connCtx := w.connCtx
               trace := w.trace ++ [Event.netDial network addr (.error err)] },
             some (.error err)) ∧
        (∀ cb, callCount cb (w.invokeDialContext (.error err) network addr).1.trace
          = callCount cb w.trace) ∧
        connWrapCount (w.invokeDialContext (.error err) network addr).1.trace
          = connWrapCount w.trace)) ∧
    (w.connCtx.httpsDialer = some cl →
      (∀ c : NetConn,
        (w.invokeDialTLSContext SplitHostPort keyLog (.ok c) network addr).1
          = { connCtx := { w.connCtx with
                Server := some
                  { server with Conn := some (cl.connWrap c), Address := addr } }
              trace := w.trace ++ [Event.netDial network addr (.ok c), Event.connWrap c,
                Event.call cl.whenConnected (some (cl.connWrap c)) addr] } ∧
        (∀ cb, callCount cb
            (w.invokeDialTLSContext SplitHostPort keyLog (.ok c) network addr).1.trace
          = callCount cb w.trace + (if cl.whenConnected = cb then 1 else 0)) ∧
        connWrapCount
            (w.invokeDialTLSContext SplitHostPort keyLog (.ok c) network addr).1.trace
          = connWrapCount w.trace + 1) ∧
      (∀ err : GoError,
        w.invokeDialTLSContext SplitHostPort keyLog (.error err) network addr
          = ({ connCtx := w.connCtx
               trace := w.trace ++ [Event.netDial network addr (.error err)] },
             some (.error err)) ∧
        (∀ cb, callCount cb
            (w.invokeDialTLSContext SplitHostPort keyLog (.error err) network addr).1.trace
          = callCount cb w.trace) ∧
        connWrapCount
            (w.invokeDialTLSContext SplitHostPort keyLog (.error err) network addr).1.trace
          = connWrapCount w.trace)) := by
  refine ⟨fun ctx ssl cw wc hnil => ⟨InitHttpServer_httpDialer _ _ _ _ _ _ hnil,
    InitHttpsServer_httpsDialer _ _ _ _ _ hnil⟩, fun hd => ⟨fun c => ?_, fun err => ?_⟩,
    fun hd => ⟨fun c => ?_, fun err => ?_⟩⟩
  · rw [invokeDialContext_ok w server cl network addr c hs hd]
    refine ⟨rfl, fun cb => ?_, ?_⟩
    · simp [callCount_append, callCount]
    · simp [connWrapCount_append, connWrapCount]
  · rw [invokeDialContext_error w server cl network addr err hs hd]
    refine ⟨rfl, fun cb => ?_, ?_⟩
    · simp [callCount_append, callCount]
    · simp [connWrapCount_append, connWrapCount]
  · rw [invokeDialTLSContext_ok SplitHostPort keyLog w server cl network addr c hs hd]
    refine ⟨rfl, fun cb => ?_, ?_⟩
    · simp [callCount_append, callCount]
    · simp [connWrapCount_append, connWrapCount]
  · rw [invokeDialTLSContext_error SplitHostPort keyLog w server cl network addr err hs hd]
    refine ⟨rfl, fun cb => ?_, ?_⟩
    · simp [callCount_append, callCount]
    · simp [connWrapCount_append, connWrapCount]

/-- C4 at concrete inputs: after `InitHttpServer` on the plain-http sample context, a
successful connect to `example.test:80` records the wrapped socket and the address and
calls callback 1 once; a refused connect leaves the context as it was. -/
theorem dialers_record_connection_witness :
    sampleHttpWorld.invokeDialContext (.ok (NetConn.raw 9)) "tcp" "example.test:80"
      = ({ connCtx :=
             { Client := { Conn := NetConn.raw 3, Tls := false }
               Server := some
                 { Conn := some (NetConn.wrapped 7 (NetConn.raw 9))
                   Client := (sampleHttpCtx.InitHttpServer sampleNewServer none false
                     sampleConnWrap 1).Server.bind (fun srv => srv.Client)
                   Address := "example.test:80" } }
           trace := [Event.netDial "tcp" "example.test:80" (.ok (NetConn.raw 9)),
             Event.connWrap (NetConn.raw 9),
             Event.call 1 (some (NetConn.wrapped 7 (NetConn.raw 9))) "example.test:80"] },
         some (.ok (NetConn.wrapped 7 (NetConn.raw 9)))) ∧
    sampleHttpWorld.invokeDialContext (.error "connection refused") "tcp" "example.test:80"
      = ({ connCtx := sampleHttpWorld.connCtx
           trace := [Event.netDial "tcp" "example.test:80" (.error "connection refused")] },
         some (.error "connection refused")) :=
  ⟨((dialers_record_connection sampleNewServer none sampleSplitHostPort sampleHttpWorld
      { sampleNewServer with
        Client := (sampleHttpCtx.InitHttpServer sampleNewServer none false
          sampleConnWrap 1).Server.bind (fun srv => srv.Client) }
      { sslInsecure := false, connWrap := sampleConnWrap, whenConnected := 1 }
      "tcp" "example.test:80" rfl).2.1 rfl).1 (NetConn.raw 9) |>.1,
   ((dialers_record_connection sampleNewServer none sampleSplitHostPort sampleHttpWorld
      { sampleNewServer with
        Client := (sampleHttpCtx.InitHttpServer sampleNewServer none false
          sampleConnWrap 1).Server.bind (fun srv => srv.Client) }
      { sslInsecure := false, connWrap := sampleConnWrap, whenConnected := 1 }
      "tcp" "example.test:80" rfl).2.1 rfl).2 "connection refused" |>.1⟩

/-- C6: when the `DialTLSContext` closure of an https context is called for an address
that `net.SplitHostPort` splits into `host` and `port`, and the TCP connect succeeds with
socket `c`, the returned connection is the TLS client over `conn_wrap c` whose
configuration has `ServerName = host` and `InsecureSkipVerify` equal to the `ssl_insecure`
the closure captured, which is the argument given to `InitHttpsServer`. -/
theorem dialTLS_config (NewServer : Server) (keyLog : KeyLogWriter)
    (SplitHostPort : String → Except GoError (String × String)) (w : World)
    (server : Server) (cl : DialClosure) (network addr host port : String) (c : NetConn)
    (hs : w.connCtx.Server = some server) (hd : w.connCtx.httpsDialer = some cl)
    (hsplit : SplitHostPort addr = .ok (host, port)) :
    (w.invokeDialTLSContext SplitHostPort keyLog (.ok c) network addr).2
      = some (.ok (NetConn.tlsClient (cl.connWrap c)
          { InsecureSkipVerify := cl.sslInsecure, KeyLogWriter := keyLog,
            ServerName := host })) ∧
    (∀ (ctx : ConnContext) (sslInsecure : Bool) (connWrap : NetConn → NetConn)
        (whenConnected : Callback) (trace : List Event),
      ctx.Server = none → ctx.Client.Tls = true →
      (World.invokeDialTLSContext SplitHostPort keyLog
          { connCtx := ctx.InitHttpsServer NewServer sslInsecure connWrap whenConnected
            trace := trace } (.ok c) network addr).2
        = some (.ok (NetConn.tlsClient (connWrap c)
            { InsecureSkipVerify := sslInsecure, KeyLogWriter := keyLog,
              ServerName := host }))) := by
  constructor
  · rw [invokeDialTLSContext_ok SplitHostPort keyLog w server cl network addr c hs hd,
      hsplit]
  · intro ctx ssl cw wc trace hnil htls
    have hd' := InitHttpsServer_httpsDialer NewServer ctx ssl cw wc hnil htls
    cases hsrv : (ctx.InitHttpsServer NewServer ssl cw wc).Server with
    | none => simp [ConnContext.httpsDialer, hsrv] at hd'
    | some srv =>
      rw [invokeDialTLSContext_ok SplitHostPort keyLog _ srv _ network addr c hsrv hd',
        hsplit]

/-- C6 at concrete inputs: after `InitHttpsServer` with `ssl_insecure = true` on the https
sample context, a successful connect to `example.test:443` returns the TLS client over the
wrapped socket with `ServerName = "example.test"` and `InsecureSkipVerify = true`. -/
theorem dialTLS_config_witness :
    (sampleHttpsWorld.invokeDialTLSContext sampleSplitHostPort none (.ok (NetConn.raw 9))
        "tcp" "example.test:443").2
      = some (.ok (NetConn.tlsClient (NetConn.wrapped 7 (NetConn.raw 9))
          { InsecureSkipVerify := true, KeyLogWriter := none,
            ServerName := "example.test" })) :=
  (dialTLS_config sampleNewServer none sampleSplitHostPort sampleHttpsWorld
    { sampleNewServer with
      Client := (sampleHttpsCtx.InitHttpsServer sampleNewServer true
        sampleConnWrap 2).Server.bind (fun srv => srv.Client) }
    { sslInsecure := true, connWrap := sampleConnWrap, whenConnected := 2 }
    "tcp" "example.test:443" "example.test" "443" (NetConn.raw 9) rfl rfl rfl).1

/-! ## flow/conncontext.go: reachable states -/

theorem step_Client (NewServer : Server) (keyLog : KeyLogWriter)
    (SplitHostPort : String → Except GoError (String × String)) (w : World) (st : Step) :
    (w.step NewServer keyLog SplitHostPort st).connCtx.Client = w.connCtx.Client := by
  cases st with
  | init call => exact init_Client NewServer keyLog w.connCtx call
  | dialContext network addr tcp =>
    simp only [World.step, World.invokeDialContext]
    repeat' split
    all_goals rfl
  | dialTLSContext network addr tcp =>
    simp only [World.step, World.invokeDialTLSContext]
    repeat' split
    all_goals rfl

theorem step_isSome (NewServer : Server) (keyLog : KeyLogWriter)
    (SplitHostPort : String → Except GoError (String × String)) (w : World) (st : Step) :
    (w.step NewServer keyLog SplitHostPort st).connCtx.Server.isSome
      = (w.connCtx.Server.isSome || st.attaches w.connCtx.Client.Tls) := by
  cases st with
  | init call => exact init_isSome NewServer keyLog w.connCtx call
  | dialContext network addr tcp =>
    simp only [World.step, World.invokeDialContext, Step.attaches, Bool.or_false]
    repeat' split
    all_goals simp_all
  | dialTLSContext network addr tcp =>
    simp only [World.step, World.invokeDialTLSContext, Step.attaches, Bool.or_false]
    repeat' split
    all_goals simp_all

theorem run_Client (NewServer : Server) (keyLog : KeyLogWriter)
    (SplitHostPort : String → Except GoError (String × String)) (steps : List Step)
    (w : World) :
    (w.run NewServer keyLog SplitHostPort steps).connCtx.Client = w.connCtx.Client := by
  induction steps generalizing w with
  | nil => rfl
  | cons st rest ih =>
    simp only [World.run, List.foldl_cons] at ih ⊢
    rw [ih, step_Client]

theorem run_isSome (NewServer : Server) (keyLog : KeyLogWriter)
    (SplitHostPort : String → Except GoError (String × String)) (steps : List Step)
    (w : World) :
    (w.run NewServer keyLog SplitHostPort steps).connCtx.Server.isSome
      = (w.connCtx.Server.isSome || steps.any (Step.attaches w.connCtx.Client.Tls)) := by
  induction steps generalizing w with
  | nil => simp [World.run]
  | cons st rest ih =>
    simp only [World.run, List.foldl_cons, List.any_cons] at ih ⊢
    rw [ih, step_isSome, step_Client, Bool.or_assoc]

theorem step_address (NewServer : Server) (keyLog : KeyLogWriter)
    (SplitHostPort : String → Except GoError (String × String)) (w : World) (st : Step)
    (hnil : w.connCtx.Server = none → w.trace = [])
    (haddr : ∀ server, w.connCtx.Server = some server →
      server.Address = (lastDialed w.trace).getD NewServer.Address) :
    ((w.step NewServer keyLog SplitHostPort st).connCtx.Server = none →
      (w.step NewServer keyLog SplitHostPort st).trace = []) ∧
    (∀ server, (w.step NewServer keyLog SplitHostPort st).connCtx.Server = some server →
      server.Address
        = (lastDialed (w.step NewServer keyLog SplitHostPort st).trace).getD
            NewServer.Address) := by
  cases hsrv : w.connCtx.Server with
  | none =>
    have htrace : w.trace = [] := hnil hsrv
    cases st with
    | init call =>
      obtain ⟨https, ssl, cw, wc⟩ := call
      cases https <;> cases htls : w.connCtx.Client.Tls <;>
        simp [World.step, ConnContext.init, ConnContext.InitHttpServer,
          ConnContext.InitHttpsServer, hsrv, htls, htrace, lastDialed]
    | dialContext network addr tcp =>
      simp [World.step, World.invokeDialContext, hsrv, htrace]
    | dialTLSContext network addr tcp =>
      simp [World.step, World.invokeDialTLSContext, hsrv, htrace]
  | some srv =>
    have ha : srv.Address = (lastDialed w.trace).getD NewServer.Address := haddr srv hsrv
    cases st with
    | init call =>
      have hsame : w.connCtx.init NewServer keyLog call = w.connCtx :=
        init_of_attached NewServer keyLog w.connCtx call (by simp [hsrv])
      simp [World.step, hsame, hsrv, ha]
    | dialContext network addr tcp =>
      cases hd : w.connCtx.httpDialer with
      | none => simp [World.step, World.invokeDialContext, hsrv, hd, ha]
      | some cl =>
        cases tcp with
        | error err =>
          simp [World.step, invokeDialContext_error w srv cl network addr err hsrv hd, hsrv,
            ha, lastDialed, List.filterMap_append, Event.dialed]
        | ok c =>
          simp [World.step, invokeDialContext_ok w srv cl network addr c hsrv hd,
            lastDialed, List.filterMap_append, Event.dialed]
    | dialTLSContext network addr tcp =>
      cases hd : w.connCtx.httpsDialer with
      | none => simp [World.step, World.invokeDialTLSContext, hsrv, hd, ha]
      | some cl =>
        cases tcp with
        | error err =>
          simp [World.step,
            invokeDialTLSContext_error SplitHostPort keyLog w srv cl network addr err hsrv hd,
            hsrv, ha, lastDialed, List.filterMap_append, Event.dialed]
        | ok c =>
          simp [World.step,
            invokeDialTLSContext_ok SplitHostPort keyLog w srv cl network addr c hsrv hd,
            lastDialed, List.filterMap_append, Event.dialed]

theorem run_address (NewServer : Server) (keyLog : KeyLogWriter)
    (SplitHostPort : String → Except GoError (String × String)) (steps : List Step)
    (w : World) (hnil : w.connCtx.Server = none → w.trace = [])
    (haddr : ∀ server, w.connCtx.Server = some server →
      server.Address = (lastDialed w.trace).getD NewServer.Address) :
    ((w.run NewServer keyLog SplitHostPort steps).connCtx.Server = none →
      (w.run NewServer keyLog SplitHostPort steps).trace = []) ∧
    (∀ server, (w.run NewServer keyLog SplitHostPort steps).connCtx.Server = some server →
      server.Address
        = (lastDialed (w.run NewServer keyLog SplitHostPort steps).trace).getD
            NewServer.Address) := by
  induction steps generalizing w with
  | nil => exact ⟨hnil, haddr⟩
  | cons st rest ih =>
    have hstep := step_address NewServer keyLog SplitHostPort w st hnil haddr
    exact ih (w.step NewServer keyLog SplitHostPort st) hstep.1 hstep.2

/-- C5, as stated, fails: after `NewConnContext` and one call of `InitHttpServer` the
Server is attached although no dial has taken place, and its `Address` is the one
`NewServer` gave it, not a dialed address. -/
theorem server_attached_before_dial_counterexample :
    ((World.new sampleNewClient (NetConn.raw 3)).run sampleNewServer none
        sampleSplitHostPort [Step.init sampleHttpCall]).connCtx.Server.isSome = true ∧
    ((World.new sampleNewClient (NetConn.raw 3)).run sampleNewServer none
        sampleSplitHostPort [Step.init sampleHttpCall]).trace = [] ∧
    (((World.new sampleNewClient (NetConn.raw 3)).run sampleNewServer none
        sampleSplitHostPort [Step.init sampleHttpCall]).connCtx.Server.map
          (fun srv => srv.Address)) = some "" := by
  refine ⟨rfl, rfl, rfl⟩

/-- C5, amended: in every state reached from `NewConnContext` by initializer calls and
dialer invocations in any order, the Server is nil until the first initializer call of
the variant that applies to the Client's TLS flag (and non-nil from then on); no dial
takes place while the Server is nil; and whenever the Server is non-nil its `Address` is
the address of the most recent dial whose TCP connect succeeded or, when no connect has
succeeded yet, the `Address` of the record `NewServer` returned. -/
theorem server_address_invariant (NewClient : NetConn → Client) (NewServer : Server)
    (keyLog : KeyLogWriter) (SplitHostPort : String → Except GoError (String × String))
    (c : NetConn) (steps : List Step) :
    (World.new NewClient c).connCtx.Server = none ∧
    (((World.new NewClient c).run NewServer keyLog SplitHostPort steps).connCtx.Server.isSome
        = true ↔
      ∃ call, Step.init call ∈ steps ∧ call.appliesTo (NewClient c).Tls = true) ∧
    (((World.new NewClient c).run NewServer keyLog SplitHostPort steps).connCtx.Server = none →
      ((World.new NewClient c).run NewServer keyLog SplitHostPort steps).trace = []) ∧
    (∀ server,
      ((World.new NewClient c).run NewServer keyLog SplitHostPort steps).connCtx.Server
        = some server →
      server.Address
        = (lastDialed
            ((World.new NewClient c).run NewServer keyLog SplitHostPort steps).trace).getD
            NewServer.Address) := by
  have hinv := run_address NewServer keyLog SplitHostPort steps (World.new NewClient c)
    (fun _ => rfl) (fun server h => by simp [World.new, NewConnContext] at h)
  refine ⟨rfl, ?_, hinv.1, hinv.2⟩
  rw [run_isSome]
  simp only [World.new, NewConnContext, Option.isSome_none, Bool.false_or, List.any_eq_true]
  constructor
  · rintro ⟨st, hmem, hst⟩
    cases st with
    | init call => exact ⟨call, hmem, hst⟩
    | dialContext network addr tcp => simp [Step.attaches] at hst
    | dialTLSContext network addr tcp => simp [Step.attaches] at hst
  · rintro ⟨call, hmem, hcall⟩
    exact ⟨Step.init call, hmem, hcall⟩

/-- C5, amended, at concrete inputs: after `InitHttpServer`, a refused connect to
`first.test:80` and a successful connect to `example.test:80`, the Server's `Address` is
`example.test:80`. -/
theorem server_address_invariant_witness :
    ∃ server,
      ((World.new sampleNewClient (NetConn.raw 3)).run sampleNewServer none
        sampleSplitHostPort
        [Step.init sampleHttpCall,
         Step.dialContext "tcp" "first.test:80" (.error "connection refused"),
         Step.dialContext "tcp" "example.test:80" (.ok (NetConn.raw 9))]).connCtx.Server
        = some server ∧
      server.Address = "example.test:80" :=
  ⟨_, rfl,
    ((server_address_invariant sampleNewClient sampleNewServer none sampleSplitHostPort
      (NetConn.raw 3)
      [Step.init sampleHttpCall,
       Step.dialContext "tcp" "first.test:80" (.error "connection refused"),
       Step.dialContext "tcp" "example.test:80" (.ok (NetConn.raw 9))]).2.2.2 _ rfl).trans
      rfl⟩

/-! ## The proxy selection of a context's client -/

theorem init_transport_Proxy (NewServer : Server) (keyLog : KeyLogWriter)
    (ctx : ConnContext) (call : InitCall) (server : Server) (client : HttpClient)
    (hnil : ctx.Server = none) (hs : (ctx.init NewServer keyLog call).Server = some server)
    (hc : server.Client = some client) :
    client.Transport.Proxy = ProxyFunc.ProxyFromEnvironment := by
  obtain ⟨https, ssl, cw, wc⟩ := call
  cases https <;> cases htls : ctx.Client.Tls <;>
    simp [ConnContext.init, ConnContext.InitHttpServer, ConnContext.InitHttpsServer, hnil,
      htls] at hs
  all_goals
    subst hs
    simp only [Option.some.injEq] at hc
    subst hc
    rfl

/-- C7 at the failing input: with the `Upstream` option naming a parent proxy and no proxy
variable in the environment, `getUpstreamProxyUrl` answers with the parent proxy and so
does the proxy's own client, while the client attached by `InitHttpServer` selects by
`http.ProxyFromEnvironment` and dials directly. -/
theorem connContext_client_ignores_upstream :
    sampleUpstreamProxy.upstreamProxy.isNone = true ∧
    sampleUpstreamProxy.Opts.Upstream = "http://parent.test:3128" ∧
    sampleUpstreamProxy.getUpstreamProxyUrl emptyEnv.proxyForRequest sampleUrlParse
        sampleRequest = .ok (some sampleParent) ∧
    (∃ server client, sampleHttpWorld.connCtx.Server = some server ∧
      server.Client = some client ∧
      client.Transport.Proxy = ProxyFunc.ProxyFromEnvironment ∧
      client.Transport.proxyFor emptyEnv.proxyForRequest sampleUrlParse sampleUpstreamProxy
          sampleClientRequest = some (.ok none)) ∧
    (∃ proxy client,
      (NewProxy sampleNewEntry sampleNewMiddle none sampleUpstreamOptions).2 = .ok proxy ∧
      proxy.client = some client ∧
      client.Transport.proxyFor emptyEnv.proxyForRequest sampleUrlParse proxy
          sampleClientRequest = some (.ok (some sampleParent))) := by
  refine ⟨rfl, rfl, ?_, ⟨_, _, rfl, rfl, rfl, ?_⟩, ⟨_, _, rfl, rfl, ?_⟩⟩
  · rw [getUpstreamProxyUrl_of_option _ _ _ _ rfl (by decide)]
    rfl
  · simp [Transport.proxyFor, EnvConfig.proxyForRequest, emptyEnv, sampleClientRequest,
      sampleRequest]
  · simp only [Transport.proxyFor, Proxy.realUpstreamProxy, sampleClientRequest]
    rw [getUpstreamProxyUrl_of_option _ _ _ _ rfl (by decide)]
    rfl

end GoMitmproxy
